import Mathlib

/-!
Shallow embedding of the Calculator repository (a REPL for arithmetic
expressions over floating-point numbers with variables).

Sources embedded:
- src/tokenStream.h : token scanner with a one-slot putback buffer
- src/main.cpp      : fused recursive-descent parser/evaluator
- src/unnamed/part_000 (variable.h) : the variable store, VarTable

Modelling conventions:
- C++ double is modelled as the rationals; every numeric value appearing in
  the claims is exactly representable, and fmod is modelled as the exact
  truncated-quotient remainder, which agrees with IEEE fmod (fmod is exact).
  Exponent notation in numeric literals is not modelled; no claim uses it.
- The C++ istream cursor is a list of remaining characters; TokenStream
  state is that cursor plus the optional buffered token.
- C++ exceptions are modelled by threading the mutated state explicitly:
  every evaluation procedure returns the token-stream state, the variable
  store, and an Except value.  On error the states returned are the states
  at the moment of the throw, exactly as the caller of the C++ code
  observes them through the references it passed in.
- Recursion of the mutually recursive parser procedures is indexed by fuel
  so that the functions are structurally recursive and reduce by rfl; fuel
  exhaustion is a distinguished error that no claim input reaches.
-/

set_option maxRecDepth 20000

/- The Batteries rational-number operations are marked irreducible; make
them reducible again in this file so that concrete runs of the embedded
program evaluate by definitional reduction. -/
unseal Rat.add Rat.sub Rat.mul Rat.inv

namespace Calculator

/-- enum class TokenType, src/tokenStream.h lines 10-24. -/
inductive TokenType where
  | ADD | SUB | MUL | DIV | MOD
  | LPAREN | RPAREN
  | NUMBER
  | INPUT_EOF
  | UNKNOWN
  | KW_LET
  | EQUALS
  | NAME
  deriving DecidableEq, Repr

/-- class Token, src/tokenStream.h lines 26-35: a kind plus a numeric value
(meaningful for NUMBER) and a name (meaningful for NAME). -/
structure Token where
  kind : Calculator.TokenType
  value : ℚ
  name : String
  deriving DecidableEq, Repr

/-- Token(TokenType type) constructor. -/
def Token.ofKind (k : Calculator.TokenType) : Token := ⟨k, 0, ""⟩

/-- Token(double val) constructor. -/
def Token.ofValue (v : ℚ) : Token := ⟨.NUMBER, v, ""⟩

/-- Token(string name) constructor. -/
def Token.ofName (n : String) : Token := ⟨.NAME, 0, n⟩

/-- The whitespace characters skipped by operator>> (C locale isspace). -/
def isSpaceChar (c : Char) : Bool :=
  c = ' ' || c = '\t' || c = '\n' || c = '\x0b' || c = '\x0c' || c = '\r'

/-- Consume a maximal run of decimal digits, accumulating their value. -/
def readDigits (acc : ℕ) : List Char → ℕ × List Char
  | [] => (acc, [])
  | c :: cs =>
    if c.isDigit then readDigits (acc * 10 + (c.toNat - '0'.toNat)) cs
    else (acc, c :: cs)

/-- Consume a maximal run of digits after the decimal point, accumulating
the numerator and the power-of-ten denominator. -/
def readFracDigits (num : ℕ) (den : ℕ) : List Char → ℕ × ℕ × List Char
  | [] => (num, den, [])
  | c :: cs =>
    if c.isDigit then readFracDigits (num * 10 + (c.toNat - '0'.toNat)) (den * 10) cs
    else (num, den, c :: cs)

/-- `inputStream >> val` on a stream whose next character is a digit or a
dot: parse a floating-point literal (integer part, optional fraction). -/
def readNumber (input : List Char) : ℚ × List Char :=
  let (ip, rest) := readDigits 0 input
  match rest with
  | '.' :: cs =>
    let (n, d, rest') := readFracDigits ip 1 cs
    ((n : ℚ) / (d : ℚ), rest')
  | _ => ((ip : ℚ), rest)

/-- TokenStream::readVariableOrKeyword, src/tokenStream.h lines 97-116:
the maximal alphanumeric run continuing an identifier. -/
def readNameChars (acc : String) : List Char → String × List Char
  | [] => (acc, [])
  | c :: cs =>
    if c.isAlpha || c.isDigit then readNameChars (acc.push c) cs
    else (acc, c :: cs)

/-- TokenStream::doReadNextToken, src/tokenStream.h lines 44-93: skip
whitespace, then classify the next lexical unit.  Returns the token and the
remaining input. -/
def doReadNextToken (input : List Char) : Token × List Char :=
  match input.dropWhile isSpaceChar with
  | [] => (Token.ofKind .INPUT_EOF, [])
  | c :: cs =>
    if c = '+' then (Token.ofKind .ADD, cs)
    else if c = '-' then (Token.ofKind .SUB, cs)
    else if c = '*' then (Token.ofKind .MUL, cs)
    else if c = '/' then (Token.ofKind .DIV, cs)
    else if c = '%' then (Token.ofKind .MOD, cs)
    else if c = '(' then (Token.ofKind .LPAREN, cs)
    else if c = ')' then (Token.ofKind .RPAREN, cs)
    else if c = '=' then (Token.ofKind .EQUALS, cs)
    else if c.isDigit || c = '.' then
      let (v, rest) := readNumber (c :: cs)
      (Token.ofValue v, rest)
    else if c.isAlpha then
      let (name, rest) := readNameChars (String.mk [c]) cs
      if name = "let" then (Token.ofKind .KW_LET, rest)
      else (Token.ofName name, rest)
    else (Token.ofKind .UNKNOWN, cs)

/-- The error kinds of the program (spec section 7).  Each constructor
corresponds to exactly one C++ throw site. -/
inductive Err where
  /-- Unexpected token. (TokenStream::get, an UNKNOWN token was scanned) -/
  | lexError
  /-- Missing a right parenthesis. (primary) -/
  | missingRightParen
  /-- Expected a primary (primary) -/
  | expectedPrimary
  /-- Expected a variable name after the let keyword. (declaration) -/
  | expectedNameAfterLet
  /-- Missing = in a declaration of the named variable. (declaration) -/
  | missingEquals (name : String)
  /-- Undefined variable (VarTable::get) -/
  | undefinedVariable (name : String)
  /-- Division by zero (term, for / and %) -/
  | divisionByZero
  /-- Called pushfront with the buffer already full. (TokenStream::putback) -/
  | internalError
  /-- Fuel exhaustion of the embedding; reached by no claim input. -/
  | outOfFuel
  deriving DecidableEq, Repr

/-- The mutable state of class TokenStream: the input cursor plus the
one-slot putback buffer (bufferFull/buffer). -/
structure TS where
  input : List Char
  buffer : Option Token
  deriving DecidableEq, Repr

/-- TokenStream::get, src/tokenStream.h lines 122-133: return the buffered
token if present, else scan a fresh one, rejecting UNKNOWN. -/
def TS.get (ts : TS) : TS × Except Err Token :=
  match ts.buffer with
  | some t => (⟨ts.input, none⟩, .ok t)
  | none =>
    let (tok, rest) := doReadNextToken ts.input
    if tok.kind = .UNKNOWN then (⟨rest, none⟩, .error .lexError)
    else (⟨rest, none⟩, .ok tok)

/-- TokenStream::putback, src/tokenStream.h lines 137-143: store one token
in the buffer; fails if the buffer is already occupied. -/
def TS.putback (ts : TS) (t : Token) : TS × Except Err Unit :=
  match ts.buffer with
  | some _ => (ts, .error .internalError)
  | none => (⟨ts.input, some t⟩, .ok ())

/-- The scan loop of TokenStream::ignore, src/tokenStream.h line 155:
`while (doReadNextToken().kind != TokenType::INPUT_EOF) { }` — note that it
compares against INPUT_EOF, not against the requested kind.  Fuel-indexed;
each non-EOF scan consumes at least one character, so input.length + 1
fuel always suffices. -/
def ignoreLoop : ℕ → List Char → List Char
  | 0, input => input
  | fuel + 1, input =>
    let (tok, rest) := doReadNextToken input
    if tok.kind = .INPUT_EOF then rest else ignoreLoop fuel rest

/-- TokenStream::ignore, src/tokenStream.h lines 147-157. -/
def TS.ignore (ts : TS) (tokenType : Calculator.TokenType) : TS :=
  match ts.buffer with
  | some t =>
    if t.kind = tokenType then ⟨ts.input, none⟩
    else ⟨ignoreLoop (ts.input.length + 1) ts.input, none⟩
  | none => ⟨ignoreLoop (ts.input.length + 1) ts.input, none⟩

/-- class Variable, src/unnamed/part_000 lines 8-12. -/
structure Variable where
  name : String
  value : ℚ
  deriving DecidableEq, Repr

/-- VarTable::variables — the store is the ordered list of variables. -/
abbrev VarTable := List Variable

/-- VarTable::get, src/unnamed/part_000 lines 30-38: return the value of
the first variable with the given name, or fail with the
undefined-variable error. -/
def VarTable.get : VarTable → String → Except Err ℚ
  | [], name => .error (.undefinedVariable name)
  | v :: vs, name => if name = v.name then .ok v.value else VarTable.get vs name

/-- The mutation performed by VarTable::define, src/unnamed/part_000 lines
40-50: update the first variable with the given name in place, or append a
new one at the end. -/
def VarTable.defineList : VarTable → String → ℚ → VarTable
  | [], name, value => [⟨name, value⟩]
  | v :: vs, name, value =>
    if v.name = name then ⟨v.name, value⟩ :: vs
    else v :: VarTable.defineList vs name value

/-- VarTable::define: performs the mutation and returns the value. -/
def VarTable.define (vt : VarTable) (name : String) (value : ℚ) : VarTable × ℚ :=
  (VarTable.defineList vt name value, value)

/-- Truncation toward zero, as used by C fmod. -/
def ratTrunc (q : ℚ) : ℤ :=
  if 0 ≤ q then Int.floor q else Int.ceil q

/-- C fmod on exact values: x - trunc(x / y) * y; the result carries the
sign of the dividend x. -/
def fmodQ (x y : ℚ) : ℚ :=
  x - (ratTrunc (x / y) : ℚ) * y

/-- The result of one evaluation procedure: the token-stream state, the
variable store, and the value or the error. -/
abbrev PRes := TS × VarTable × Except Err ℚ

/-- Sequencing with exception propagation: run the continuation on a
successful result, propagate an error together with the states at the
moment of the throw. -/
def andThen (r : PRes) (k : ℚ → TS → VarTable → PRes) : PRes :=
  match r with
  | (ts, vt, .ok v) => k v ts vt
  | (ts, vt, .error e) => (ts, vt, .error e)

/-- Sequencing a TokenStream::get call (`Token token = ts.get();`): an
exception thrown by get propagates with the stream state after the partial
read and the untouched store. -/
def tsBind (r : TS × Except Err Token) (vt : VarTable) (k : Token → TS → PRes) : PRes :=
  match r with
  | (ts, .error e) => (ts, vt, .error e)
  | (ts, .ok t) => k t ts

/-- Sequencing a TokenStream::putback call. -/
def pbBind (r : TS × Except Err Unit) (vt : VarTable) (k : TS → PRes) : PRes :=
  match r with
  | (ts, .error e) => (ts, vt, .error e)
  | (ts, .ok _) => k ts

/-- Selector for the five mutually recursive expression procedures of
src/main.cpp.  termLoop and exprLoop are the while loops inside term
(lines 98-126) and expression (lines 134-148), carrying the running left
value. -/
inductive Mode where
  | primary
  | term
  | termLoop (left : ℚ)
  | expression
  | exprLoop (left : ℚ)

/-- The five mutually recursive procedures primary / term / expression of
src/main.cpp lines 67-149, as one fuel-indexed function.
primary (lines 67-92): unary sign, parentheses, number, variable lookup,
otherwise put the token back and fail.
term (lines 95-127): one primary, then the * / % fold (termLoop), with the
division-by-zero check before / and %.
expression (lines 130-149): one term, then the + - fold (exprLoop). -/
def run : ℕ → Mode → TS → VarTable → PRes
  | 0, _, ts, vt => (ts, vt, .error .outOfFuel)
  | fuel + 1, mode, ts, vt =>
    match mode with
    | .primary =>
      tsBind (TS.get ts) vt fun token ts' =>
        if token.kind = .ADD then run fuel .primary ts' vt
        else if token.kind = .SUB then
          andThen (run fuel .primary ts' vt) fun v ts'' vt' => (ts'', vt', .ok (-v))
        else if token.kind = .LPAREN then
          andThen (run fuel .expression ts' vt) fun v ts'' vt' =>
            tsBind (TS.get ts'') vt' fun token2 ts3 =>
              if token2.kind = .RPAREN then (ts3, vt', .ok v)
              else (ts3, vt', .error .missingRightParen)
        else if token.kind = .NUMBER then (ts', vt, .ok token.value)
        else if token.kind = .NAME then (ts', vt, VarTable.get vt token.name)
        else
          pbBind (TS.putback ts' token) vt fun ts'' =>
            (ts'', vt, .error .expectedPrimary)
    | .term =>
      andThen (run fuel .primary ts vt) fun left ts' vt' =>
        run fuel (.termLoop left) ts' vt'
    | .termLoop left =>
      tsBind (TS.get ts) vt fun token ts' =>
        if token.kind = .MUL then
          andThen (run fuel .primary ts' vt) fun right ts'' vt' =>
            run fuel (.termLoop (left * right)) ts'' vt'
        else if token.kind = .DIV then
          andThen (run fuel .primary ts' vt) fun right ts'' vt' =>
            if right = 0 then (ts'', vt', .error .divisionByZero)
            else run fuel (.termLoop (left / right)) ts'' vt'
        else if token.kind = .MOD then
          andThen (run fuel .primary ts' vt) fun right ts'' vt' =>
            if right = 0 then (ts'', vt', .error .divisionByZero)
            else run fuel (.termLoop (fmodQ left right)) ts'' vt'
        else
          pbBind (TS.putback ts' token) vt fun ts'' => (ts'', vt, .ok left)
    | .expression =>
      andThen (run fuel .term ts vt) fun left ts' vt' =>
        run fuel (.exprLoop left) ts' vt'
    | .exprLoop left =>
      tsBind (TS.get ts) vt fun token ts' =>
        if token.kind = .ADD then
          andThen (run fuel .term ts' vt) fun right ts'' vt' =>
            run fuel (.exprLoop (left + right)) ts'' vt'
        else if token.kind = .SUB then
          andThen (run fuel .term ts' vt) fun right ts'' vt' =>
            run fuel (.exprLoop (left - right)) ts'' vt'
        else
          pbBind (TS.putback ts' token) vt fun ts'' => (ts'', vt, .ok left)

/-- double primary(TokenStream&, VarTable&), src/main.cpp lines 67-92. -/
def primary (fuel : ℕ) : TS → VarTable → PRes := run fuel .primary

/-- double term(TokenStream&, VarTable&), src/main.cpp lines 95-127. -/
def term (fuel : ℕ) : TS → VarTable → PRes := run fuel .term

/-- The while loop of term, src/main.cpp lines 98-126. -/
def termLoop (fuel : ℕ) (left : ℚ) : TS → VarTable → PRes := run fuel (.termLoop left)

/-- double expression(TokenStream&, VarTable&), src/main.cpp lines 130-149. -/
def expression (fuel : ℕ) : TS → VarTable → PRes := run fuel .expression

/-- The while loop of expression, src/main.cpp lines 134-148. -/
def exprLoop (fuel : ℕ) (left : ℚ) : TS → VarTable → PRes := run fuel (.exprLoop left)

/-- double declaration(TokenStream&, VarTable&), src/main.cpp lines
152-170: expect a NAME, expect EQUALS, evaluate the expression, define the
variable, return the value. -/
def declaration (fuel : ℕ) (ts : TS) (vt : VarTable) : PRes :=
  tsBind (TS.get ts) vt fun token ts' =>
    if token.kind = .NAME then
      tsBind (TS.get ts') vt fun token2 ts2 =>
        if token2.kind = .EQUALS then
          andThen (expression fuel ts2 vt) fun value ts3 vt' =>
            let r := VarTable.define vt' token.name value
            (ts3, r.1, .ok r.2)
        else
          pbBind (TS.putback ts2 token2) vt fun ts3 =>
            (ts3, vt, .error (.missingEquals token.name))
    else
      pbBind (TS.putback ts' token) vt fun ts2 =>
        (ts2, vt, .error .expectedNameAfterLet)

/-- double statement(TokenStream&, VarTable&), src/main.cpp lines 173-182:
a declaration after the let keyword, otherwise an expression. -/
def statement (fuel : ℕ) (ts : TS) (vt : VarTable) : PRes :=
  tsBind (TS.get ts) vt fun token ts' =>
    if token.kind = .KW_LET then declaration fuel ts' vt
    else
      pbBind (TS.putback ts' token) vt fun ts2 =>
        expression fuel ts2 vt

/-- double calculation(TokenStream&, VarTable&), src/main.cpp lines
185-200: starting from result 0.0, evaluate statements until INPUT_EOF and
return the last result. -/
def calculation : ℕ → ℚ → TS → VarTable → PRes
  | 0, _, ts, vt => (ts, vt, .error .outOfFuel)
  | fuel + 1, result, ts, vt =>
    tsBind (TS.get ts) vt fun token ts' =>
      if token.kind = .INPUT_EOF then (ts', vt, .ok result)
      else
        pbBind (TS.putback ts' token) vt fun ts2 =>
          andThen (statement fuel ts2 vt) fun r ts3 vt3 =>
            calculation fuel r ts3 vt3

/-- Fuel that is ample for every claim input: the recursion depth of the
parser is bounded by a small multiple of the input length. -/
def evalFuel (s : String) : ℕ := 4 * s.data.length + 40

/-- The evaluation entry point (spec section 6): run calculation over a
fresh token stream for the input line, against the given variable store. -/
def evaluate (s : String) (vt : VarTable) : PRes :=
  calculation (evalFuel s) 0 ⟨s.data, none⟩ vt


/-! ## Unfolding equations

One definitional equation per procedure, used to run the evaluator
symbolically in proofs whose store (or stream) is not concrete. -/

theorem primary_eq (f : ℕ) (ts : TS) (vt : VarTable) :
    primary (f + 1) ts vt =
      (tsBind (TS.get ts) vt fun token ts' =>
        if token.kind = .ADD then primary f ts' vt
        else if token.kind = .SUB then
          andThen (primary f ts' vt) fun v ts'' vt' => (ts'', vt', .ok (-v))
        else if token.kind = .LPAREN then
          andThen (expression f ts' vt) fun v ts'' vt' =>
            tsBind (TS.get ts'') vt' fun token2 ts3 =>
              if token2.kind = .RPAREN then (ts3, vt', .ok v)
              else (ts3, vt', .error .missingRightParen)
        else if token.kind = .NUMBER then (ts', vt, .ok token.value)
        else if token.kind = .NAME then (ts', vt, VarTable.get vt token.name)
        else
          pbBind (TS.putback ts' token) vt fun ts'' =>
            (ts'', vt, .error .expectedPrimary)) := rfl

theorem term_eq (f : ℕ) (ts : TS) (vt : VarTable) :
    term (f + 1) ts vt =
      (andThen (primary f ts vt) fun left ts' vt' => termLoop f left ts' vt') := rfl

theorem termLoop_eq (f : ℕ) (left : ℚ) (ts : TS) (vt : VarTable) :
    termLoop (f + 1) left ts vt =
      (tsBind (TS.get ts) vt fun token ts' =>
        if token.kind = .MUL then
          andThen (primary f ts' vt) fun right ts'' vt' =>
            termLoop f (left * right) ts'' vt'
        else if token.kind = .DIV then
          andThen (primary f ts' vt) fun right ts'' vt' =>
            if right = 0 then (ts'', vt', .error .divisionByZero)
            else termLoop f (left / right) ts'' vt'
        else if token.kind = .MOD then
          andThen (primary f ts' vt) fun right ts'' vt' =>
            if right = 0 then (ts'', vt', .error .divisionByZero)
            else termLoop f (fmodQ left right) ts'' vt'
        else
          pbBind (TS.putback ts' token) vt fun ts'' => (ts'', vt, .ok left)) := rfl

theorem expression_eq (f : ℕ) (ts : TS) (vt : VarTable) :
    expression (f + 1) ts vt =
      (andThen (term f ts vt) fun left ts' vt' => exprLoop f left ts' vt') := rfl

theorem exprLoop_eq (f : ℕ) (left : ℚ) (ts : TS) (vt : VarTable) :
    exprLoop (f + 1) left ts vt =
      (tsBind (TS.get ts) vt fun token ts' =>
        if token.kind = .ADD then
          andThen (term f ts' vt) fun right ts'' vt' =>
            exprLoop f (left + right) ts'' vt'
        else if token.kind = .SUB then
          andThen (term f ts' vt) fun right ts'' vt' =>
            exprLoop f (left - right) ts'' vt'
        else
          pbBind (TS.putback ts' token) vt fun ts'' => (ts'', vt, .ok left)) := rfl

theorem statement_eq (f : ℕ) (ts : TS) (vt : VarTable) :
    statement f ts vt =
      (tsBind (TS.get ts) vt fun token ts' =>
        if token.kind = .KW_LET then declaration f ts' vt
        else pbBind (TS.putback ts' token) vt fun ts2 => expression f ts2 vt) := rfl

theorem calculation_eq (f : ℕ) (result : ℚ) (ts : TS) (vt : VarTable) :
    calculation (f + 1) result ts vt =
      (tsBind (TS.get ts) vt fun token ts' =>
        if token.kind = .INPUT_EOF then (ts', vt, .ok result)
        else
          pbBind (TS.putback ts' token) vt fun ts2 =>
            andThen (statement f ts2 vt) fun r ts3 vt3 =>
              calculation f r ts3 vt3) := rfl

/-! ## Step lemmas

Symbolic execution steps for the evaluator. -/

theorem term_step_ok {f : ℕ} {ts ts1 : TS} {vt vt1 : VarTable} {v : ℚ}
    (h : primary f ts vt = (ts1, vt1, .ok v)) :
    term (f + 1) ts vt = termLoop f v ts1 vt1 := by
  rw [term_eq, h]
  rfl

theorem term_step_err {f : ℕ} {ts ts1 : TS} {vt vt1 : VarTable} {e : Err}
    (h : primary f ts vt = (ts1, vt1, .error e)) :
    term (f + 1) ts vt = (ts1, vt1, .error e) := by
  rw [term_eq, h]
  rfl

theorem expression_step_ok {f : ℕ} {ts ts1 : TS} {vt vt1 : VarTable} {v : ℚ}
    (h : term f ts vt = (ts1, vt1, .ok v)) :
    expression (f + 1) ts vt = exprLoop f v ts1 vt1 := by
  rw [expression_eq, h]
  rfl

theorem expression_step_err {f : ℕ} {ts ts1 : TS} {vt vt1 : VarTable} {e : Err}
    (h : term f ts vt = (ts1, vt1, .error e)) :
    expression (f + 1) ts vt = (ts1, vt1, .error e) := by
  rw [expression_eq, h]
  rfl

theorem primary_step_lparen {f : ℕ} {ts ts1 ts2 ts3 : TS} {vt vt1 : VarTable}
    {tok tok2 : Token} {v : ℚ}
    (hg : TS.get ts = (ts1, .ok tok)) (hk : tok.kind = .LPAREN)
    (he : expression f ts1 vt = (ts2, vt1, .ok v))
    (hg2 : TS.get ts2 = (ts3, .ok tok2)) (hk2 : tok2.kind = .RPAREN) :
    primary (f + 1) ts vt = (ts3, vt1, .ok v) := by
  rw [primary_eq, hg]
  simp only [tsBind, hk, he, andThen, hg2, hk2]
  rfl

theorem statement_step_expr {f : ℕ} {ts ts1 ts2 : TS} {vt : VarTable} {tok : Token}
    (hg : TS.get ts = (ts1, .ok tok)) (hk : tok.kind ≠ .KW_LET)
    (hpb : TS.putback ts1 tok = (ts2, .ok ())) :
    statement f ts vt = expression f ts2 vt := by
  rw [statement_eq, hg]
  simp only [tsBind, if_neg hk, hpb, pbBind]

theorem calculation_step_ok {f : ℕ} {r0 r : ℚ} {ts ts1 ts2 ts3 : TS}
    {vt vt3 : VarTable} {tok : Token}
    (hg : TS.get ts = (ts1, .ok tok)) (hk : tok.kind ≠ .INPUT_EOF)
    (hpb : TS.putback ts1 tok = (ts2, .ok ()))
    (hs : statement f ts2 vt = (ts3, vt3, .ok r)) :
    calculation (f + 1) r0 ts vt = calculation f r ts3 vt3 := by
  rw [calculation_eq, hg]
  simp only [tsBind, if_neg hk, hpb, pbBind, hs, andThen]

theorem calculation_step_err {f : ℕ} {r0 : ℚ} {ts ts1 ts2 ts3 : TS}
    {vt vt3 : VarTable} {tok : Token} {e : Err}
    (hg : TS.get ts = (ts1, .ok tok)) (hk : tok.kind ≠ .INPUT_EOF)
    (hpb : TS.putback ts1 tok = (ts2, .ok ()))
    (hs : statement f ts2 vt = (ts3, vt3, .error e)) :
    calculation (f + 1) r0 ts vt = (ts3, vt3, .error e) := by
  rw [calculation_eq, hg]
  simp only [tsBind, if_neg hk, hpb, pbBind, hs, andThen]

theorem calculation_step_eof {f : ℕ} {r : ℚ} {ts ts1 : TS} {vt : VarTable} {tok : Token}
    (hg : TS.get ts = (ts1, .ok tok)) (hk : tok.kind = .INPUT_EOF) :
    calculation (f + 1) r ts vt = (ts1, vt, .ok r) := by
  rw [calculation_eq, hg]
  simp only [tsBind, hk, if_pos]

/-! ## Variable-store lemmas -/

/-- Looking a name up right after defining it yields the defined value. -/
theorem get_defineList (vt : VarTable) (n : String) (v : ℚ) :
    VarTable.get (VarTable.defineList vt n v) n = .ok v := by
  induction vt with
  | nil => simp [VarTable.defineList, VarTable.get]
  | cons w ws ih =>
    by_cases h : w.name = n
    · simp [VarTable.defineList, h, VarTable.get]
    · simp only [VarTable.defineList, if_neg h, VarTable.get]
      rw [if_neg fun hn => h hn.symm]
      exact ih

/-- Looking up a name that is not in the store fails with the
undefined-variable error. -/
theorem get_not_mem {vt : VarTable} {n : String} (h : n ∉ vt.map Variable.name) :
    VarTable.get vt n = .error (.undefinedVariable n) := by
  induction vt with
  | nil => rfl
  | cons w ws ih =>
    simp only [List.map_cons, List.mem_cons] at h
    push_neg at h
    simp only [VarTable.get, if_neg h.1]
    exact ih h.2

/-- Redefining an existing name keeps the number of variables unchanged. -/
theorem defineList_mem_length {vt : VarTable} {n : String} (v : ℚ)
    (h : n ∈ vt.map Variable.name) :
    (VarTable.defineList vt n v).length = vt.length := by
  induction vt with
  | nil => simp at h
  | cons w ws ih =>
    by_cases hw : w.name = n
    · simp [VarTable.defineList, hw]
    · simp only [List.map_cons, List.mem_cons] at h
      rcases h with h | h
      · exact absurd h.symm hw
      · simp only [VarTable.defineList, if_neg hw, List.length_cons, ih h]

/-- Defining an absent name appends the new variable at the end. -/
theorem defineList_not_mem {vt : VarTable} {n : String} (v : ℚ)
    (h : n ∉ vt.map Variable.name) :
    VarTable.defineList vt n v = vt ++ [⟨n, v⟩] := by
  induction vt with
  | nil => rfl
  | cons w ws ih =>
    simp only [List.map_cons, List.mem_cons] at h
    push_neg at h
    rw [VarTable.defineList, if_neg (fun hw : w.name = n => h.1 hw.symm), List.cons_append,
      ih h.2]

/-- A name present after a define was present before or is the defined one. -/
theorem names_defineList {vt : VarTable} {n : String} {v : ℚ} {m : String}
    (h : m ∈ (VarTable.defineList vt n v).map Variable.name) :
    m ∈ vt.map Variable.name ∨ m = n := by
  induction vt with
  | nil => simp [VarTable.defineList] at h; simp [h]
  | cons w ws ih =>
    by_cases hw : w.name = n
    · simp only [VarTable.defineList, if_pos hw, List.map_cons, List.mem_cons] at h
      left
      simpa using h
    · simp only [VarTable.defineList, if_neg hw, List.map_cons, List.mem_cons] at h
      rcases h with h | h
      · left; simp [h]
      · rcases ih h with h2 | h2
        · left; simp [h2]
        · right; exact h2

/-- define preserves uniqueness of names in the store. -/
theorem nodup_defineList {vt : VarTable} {n : String} (v : ℚ)
    (h : (vt.map Variable.name).Nodup) :
    ((VarTable.defineList vt n v).map Variable.name).Nodup := by
  induction vt with
  | nil => simp [VarTable.defineList]
  | cons w ws ih =>
    simp only [List.map_cons, List.nodup_cons] at h
    by_cases hw : w.name = n
    · simp only [VarTable.defineList, if_pos hw, List.map_cons, List.nodup_cons]
      exact ⟨h.1, h.2⟩
    · simp only [VarTable.defineList, if_neg hw, List.map_cons, List.nodup_cons]
      refine ⟨fun hm => ?_, ih h.2⟩
      rcases names_defineList hm with hm | hm
      · exact h.1 hm
      · exact hw hm

/-! ## Division-by-zero steps -/

/-- In the term loop, a division whose right operand evaluated to zero
fails before the division is performed. -/
theorem termLoop_div_zero {f : ℕ} {l : ℚ} {ts ts1 ts2 : TS} {vt vt2 : VarTable}
    {tok : Token}
    (hg : TS.get ts = (ts1, .ok tok)) (hk : tok.kind = .DIV)
    (hp : primary f ts1 vt = (ts2, vt2, .ok 0)) :
    termLoop (f + 1) l ts vt = (ts2, vt2, .error .divisionByZero) := by
  rw [termLoop_eq, hg]
  simp [tsBind, hk, hp, andThen]

/-- In the term loop, a modulo whose right operand evaluated to zero fails
before the remainder is taken. -/
theorem termLoop_mod_zero {f : ℕ} {l : ℚ} {ts ts1 ts2 : TS} {vt vt2 : VarTable}
    {tok : Token}
    (hg : TS.get ts = (ts1, .ok tok)) (hk : tok.kind = .MOD)
    (hp : primary f ts1 vt = (ts2, vt2, .ok 0)) :
    termLoop (f + 1) l ts vt = (ts2, vt2, .error .divisionByZero) := by
  rw [termLoop_eq, hg]
  simp [tsBind, hk, hp, andThen]

/-! ## The claims -/

/-- C1: the fused parser/evaluator applies standard precedence and
left-associativity: evaluate of 6*3+2 and of 2+6*3 returns 20, and
evaluate of 10-3-2 returns 5, in any variable store (which is untouched). -/
theorem claim1_precedence_left_assoc (vt : VarTable) :
    evaluate "6*3+2" vt = (⟨[], none⟩, vt, .ok 20) ∧
    evaluate "2+6*3" vt = (⟨[], none⟩, vt, .ok 20) ∧
    evaluate "10-3-2" vt = (⟨[], none⟩, vt, .ok 5) :=
  ⟨rfl, rfl, rfl⟩

/-- C2: with several statements, evaluate returns only the last
statement value while earlier side effects are applied: on the input
let x = 2 followed by (x + 2) * 3 it returns 12 on any store, and the
resulting store maps x to 2. -/
theorem claim2_multi_statement_last_value (vt : VarTable) :
    evaluate "let x = 2 (x + 2) * 3" vt =
      (⟨[], none⟩, VarTable.defineList vt "x" 2, .ok 12) ∧
    VarTable.get (VarTable.defineList vt "x" 2) "x" = .ok 2 := by
  have hlook := get_defineList vt "x" 2
  refine ⟨?_, hlook⟩
  -- first statement: let x = 2 (pure symbol pushing, no store reads)
  have hs1 : statement 123 ⟨" x = 2 (x + 2) * 3".data, some (Token.ofKind .KW_LET)⟩ vt =
      (⟨"x + 2) * 3".data, some (Token.ofKind .LPAREN)⟩,
        VarTable.defineList vt "x" 2, .ok 2) := rfl
  have step1 : calculation 124 0 ⟨"let x = 2 (x + 2) * 3".data, none⟩ vt =
      calculation 123 2 ⟨"x + 2) * 3".data, some (Token.ofKind .LPAREN)⟩
        (VarTable.defineList vt "x" 2) :=
    calculation_step_ok rfl (by decide) rfl hs1
  -- second statement: (x + 2) * 3, reading x from the updated store
  have hpx : primary 117 ⟨"x + 2) * 3".data, none⟩ (VarTable.defineList vt "x" 2) =
      (⟨" + 2) * 3".data, none⟩, VarTable.defineList vt "x" 2,
        VarTable.get (VarTable.defineList vt "x" 2) "x") := rfl
  have hpx2 : primary 117 ⟨"x + 2) * 3".data, none⟩ (VarTable.defineList vt "x" 2) =
      (⟨" + 2) * 3".data, none⟩, VarTable.defineList vt "x" 2, .ok 2) := by
    rw [hpx, hlook]
  have ht118 : term 118 ⟨"x + 2) * 3".data, none⟩ (VarTable.defineList vt "x" 2) =
      (⟨" 2) * 3".data, some (Token.ofKind .ADD)⟩, VarTable.defineList vt "x" 2, .ok 2) :=
    (term_step_ok hpx2).trans rfl
  have he119 : expression 119 ⟨"x + 2) * 3".data, none⟩ (VarTable.defineList vt "x" 2) =
      (⟨" * 3".data, some (Token.ofKind .RPAREN)⟩, VarTable.defineList vt "x" 2, .ok 4) :=
    (expression_step_ok ht118).trans rfl
  have hp120 : primary 120 ⟨"x + 2) * 3".data, some (Token.ofKind .LPAREN)⟩
      (VarTable.defineList vt "x" 2) =
      (⟨" * 3".data, none⟩, VarTable.defineList vt "x" 2, .ok 4) :=
    primary_step_lparen rfl rfl he119 rfl rfl
  have ht121 : term 121 ⟨"x + 2) * 3".data, some (Token.ofKind .LPAREN)⟩
      (VarTable.defineList vt "x" 2) =
      (⟨[], some (Token.ofKind .INPUT_EOF)⟩, VarTable.defineList vt "x" 2, .ok 12) :=
    (term_step_ok hp120).trans rfl
  have he122 : expression 122 ⟨"x + 2) * 3".data, some (Token.ofKind .LPAREN)⟩
      (VarTable.defineList vt "x" 2) =
      (⟨[], some (Token.ofKind .INPUT_EOF)⟩, VarTable.defineList vt "x" 2, .ok 12) :=
    (expression_step_ok ht121).trans rfl
  have hs2 : statement 122 ⟨"x + 2) * 3".data, some (Token.ofKind .LPAREN)⟩
      (VarTable.defineList vt "x" 2) =
      (⟨[], some (Token.ofKind .INPUT_EOF)⟩, VarTable.defineList vt "x" 2, .ok 12) :=
    (statement_step_expr rfl (by decide) rfl).trans he122
  have step2 : calculation 123 2 ⟨"x + 2) * 3".data, some (Token.ofKind .LPAREN)⟩
      (VarTable.defineList vt "x" 2) =
      calculation 122 12 ⟨[], some (Token.ofKind .INPUT_EOF)⟩
        (VarTable.defineList vt "x" 2) :=
    calculation_step_ok rfl (by decide) rfl hs2
  exact step1.trans (step2.trans rfl)

/-- C3: evaluating a division or a modulo whose right operand evaluates to
exactly zero fails with the division-by-zero error, for every left operand
value, stream and store. -/
theorem claim3_div_mod_by_zero {f : ℕ} {l : ℚ} {ts ts1 ts2 : TS} {vt vt2 : VarTable}
    {tok : Token}
    (hg : TS.get ts = (ts1, .ok tok)) (hk : tok.kind = .DIV ∨ tok.kind = .MOD)
    (hp : primary f ts1 vt = (ts2, vt2, .ok 0)) :
    termLoop (f + 1) l ts vt = (ts2, vt2, .error .divisionByZero) := by
  rcases hk with hk | hk
  · exact termLoop_div_zero hg hk hp
  · exact termLoop_mod_zero hg hk hp

/-- Witness for C3 at the concrete stream /0 with left operand 5. -/
theorem claim3_witness :
    TS.get ⟨"/0".data, none⟩ = (⟨"0".data, none⟩, .ok (Token.ofKind .DIV)) ∧
    ((Token.ofKind .DIV).kind = .DIV ∨ (Token.ofKind .DIV).kind = .MOD) ∧
    primary 5 ⟨"0".data, none⟩ [] = (⟨[], none⟩, [], .ok 0) ∧
    termLoop 6 5 ⟨"/0".data, none⟩ [] = (⟨[], none⟩, [], .error .divisionByZero) :=
  ⟨rfl, Or.inl rfl, rfl, claim3_div_mod_by_zero rfl (Or.inl rfl) rfl⟩

/-- C4: the modulo operator follows the sign of the dividend. -/
theorem claim4_fmod_sign_of_dividend (vt : VarTable) :
    evaluate "8%3" vt = (⟨[], none⟩, vt, .ok 2) ∧
    evaluate "-8%3" vt = (⟨[], none⟩, vt, .ok (-2)) ∧
    evaluate "8%-3" vt = (⟨[], none⟩, vt, .ok 2) ∧
    evaluate "-8%-3" vt = (⟨[], none⟩, vt, .ok (-2)) :=
  ⟨rfl, rfl, rfl, rfl⟩

/-- C5 (code_bug evidence): the scan loop of TokenStream::ignore compares
against INPUT_EOF instead of the requested kind, so with an empty buffer
it always drains the whole input.  Ignoring ADD on the input plus space
one consumes the NUMBER after the first ADD (first two conjuncts), even
though the buffered path does stop at a matching token (last conjunct). -/
theorem claim5_ignore_drains_input :
    TS.ignore ⟨"+ 1".data, none⟩ .ADD = ⟨[], none⟩ ∧
    (TS.get (TS.ignore ⟨"+ 1".data, none⟩ .ADD)).2 = .ok (Token.ofKind .INPUT_EOF) ∧
    TS.ignore ⟨"+ 1".data, some (Token.ofKind .ADD)⟩ .ADD = ⟨"+ 1".data, none⟩ :=
  ⟨rfl, rfl, rfl⟩

/-- C6: a failing statement aborts the whole calculation with that error
and with exactly the store produced by the earlier completed statements
(first conjunct, the general step); concretely, on the input defining x
and y and then referencing the undefined z, the call fails with the
undefined-variable error while keeping both earlier definitions. -/
theorem claim6_failure_aborts_calculation :
    (∀ (f : ℕ) (r0 : ℚ) (ts ts1 ts2 ts3 : TS) (vt vt3 : VarTable) (tok : Token) (e : Err),
      TS.get ts = (ts1, .ok tok) → tok.kind ≠ .INPUT_EOF →
      TS.putback ts1 tok = (ts2, .ok ()) →
      statement f ts2 vt = (ts3, vt3, .error e) →
      calculation (f + 1) r0 ts vt = (ts3, vt3, .error e)) ∧
    evaluate "let x = 1 let y = 2 z" [] =
      (⟨[], none⟩, [⟨"x", 1⟩, ⟨"y", 2⟩], .error (.undefinedVariable "z")) :=
  ⟨fun _ _ _ _ _ _ _ _ _ _ hg hk hpb hs => calculation_step_err hg hk hpb hs, rfl⟩

/-- Witness for C6: one failing statement (the undefined z) on the empty
store, with every hypothesis discharged at concrete values. -/
theorem claim6_witness :
    TS.get ⟨"z".data, none⟩ = (⟨[], none⟩, .ok (Token.ofName "z")) ∧
    (Token.ofName "z").kind ≠ .INPUT_EOF ∧
    TS.putback ⟨[], none⟩ (Token.ofName "z") = (⟨[], some (Token.ofName "z")⟩, .ok ()) ∧
    statement 10 ⟨[], some (Token.ofName "z")⟩ [] =
      (⟨[], none⟩, [], .error (.undefinedVariable "z")) ∧
    calculation 11 0 ⟨"z".data, none⟩ [] =
      (⟨[], none⟩, [], .error (.undefinedVariable "z")) :=
  ⟨rfl, by decide, rfl, rfl,
    claim6_failure_aborts_calculation.1 10 0 ⟨"z".data, none⟩ ⟨[], none⟩
      ⟨[], some (Token.ofName "z")⟩ ⟨[], none⟩ [] [] (Token.ofName "z")
      (.undefinedVariable "z") rfl (by decide) rfl rfl⟩

/-- C7: referencing a name absent from the store fails with the
undefined-variable error: in VarTable::get itself (first conjunct), in
primary for any NAME token (second conjunct, with the store returned
untouched), and end to end for the input consisting of the single
reference y, which leaves the store exactly as it was. -/
theorem claim7_undefined_variable_store_unchanged :
    (∀ (vt : VarTable) (n : String), n ∉ vt.map Variable.name →
      VarTable.get vt n = .error (.undefinedVariable n)) ∧
    (∀ (f : ℕ) (ts ts1 : TS) (vt : VarTable) (tok : Token),
      TS.get ts = (ts1, .ok tok) → tok.kind = .NAME → tok.name ∉ vt.map Variable.name →
      primary (f + 1) ts vt = (ts1, vt, .error (.undefinedVariable tok.name))) ∧
    (∀ vt : VarTable, "y" ∉ vt.map Variable.name →
      evaluate "y" vt = (⟨[], none⟩, vt, .error (.undefinedVariable "y"))) := by
  refine ⟨fun vt n h => get_not_mem h, ?_, ?_⟩
  · intro f ts ts1 vt tok hg hk hn
    rw [primary_eq, hg]
    simp [tsBind, hk, get_not_mem hn]
  · intro vt h
    have hv := get_not_mem h
    have hp : primary 41 ⟨[], some (Token.ofName "y")⟩ vt =
        (⟨[], none⟩, vt, .error (.undefinedVariable "y")) := by
      rw [show primary 41 ⟨[], some (Token.ofName "y")⟩ vt =
        (⟨[], none⟩, vt, VarTable.get vt "y") from rfl, hv]
    have hs : statement 43 ⟨[], some (Token.ofName "y")⟩ vt =
        (⟨[], none⟩, vt, .error (.undefinedVariable "y")) :=
      (statement_step_expr rfl (by decide) rfl).trans
        ((expression_step_err (term_step_err hp)))
    exact calculation_step_err rfl (by decide) rfl hs

/-- Witness for C7 on the one-entry store mapping x to 1. -/
theorem claim7_witness :
    ("y" ∉ ([⟨"x", 1⟩] : VarTable).map Variable.name) ∧
    VarTable.get [⟨"x", 1⟩] "y" = .error (.undefinedVariable "y") ∧
    evaluate "y" [⟨"x", 1⟩] = (⟨[], none⟩, [⟨"x", 1⟩], .error (.undefinedVariable "y")) :=
  ⟨by decide, claim7_undefined_variable_store_unchanged.1 _ _ (by decide),
    claim7_undefined_variable_store_unchanged.2.2 _ (by decide)⟩

/-- C8: the store keeps names unique: define returns the assigned value,
a following get returns it, redefining an existing name keeps the size
unchanged, defining an absent name appends exactly one new pair, and
uniqueness of names is preserved. -/
theorem claim8_define_insert_or_update :
    (∀ (vt : VarTable) (n : String) (v : ℚ), (VarTable.define vt n v).2 = v) ∧
    (∀ (vt : VarTable) (n : String) (v : ℚ),
      VarTable.get (VarTable.define vt n v).1 n = .ok v) ∧
    (∀ (vt : VarTable) (n : String) (v : ℚ), n ∈ vt.map Variable.name →
      (VarTable.define vt n v).1.length = vt.length) ∧
    (∀ (vt : VarTable) (n : String) (v : ℚ), n ∉ vt.map Variable.name →
      (VarTable.define vt n v).1 = vt ++ [⟨n, v⟩]) ∧
    (∀ (vt : VarTable) (n : String) (v : ℚ), (vt.map Variable.name).Nodup →
      ((VarTable.define vt n v).1.map Variable.name).Nodup) :=
  ⟨fun _ _ _ => rfl, fun vt n v => get_defineList vt n v,
    fun _ _ v h => defineList_mem_length v h,
    fun _ _ v h => defineList_not_mem v h,
    fun _ _ v h => nodup_defineList v h⟩

/-- Witness for C8 on the two-entry store mapping x to 1 and z to 3. -/
theorem claim8_witness :
    ("x" ∈ ([⟨"x", 1⟩, ⟨"z", 3⟩] : VarTable).map Variable.name) ∧
    (VarTable.define [⟨"x", 1⟩, ⟨"z", 3⟩] "x" 5).1.length = 2 ∧
    ("w" ∉ ([⟨"x", 1⟩, ⟨"z", 3⟩] : VarTable).map Variable.name) ∧
    (VarTable.define [⟨"x", 1⟩, ⟨"z", 3⟩] "w" 4).1 = [⟨"x", 1⟩, ⟨"z", 3⟩, ⟨"w", 4⟩] ∧
    (([⟨"x", 1⟩, ⟨"z", 3⟩] : VarTable).map Variable.name).Nodup ∧
    ((VarTable.define [⟨"x", 1⟩, ⟨"z", 3⟩] "x" 5).1.map Variable.name).Nodup ∧
    VarTable.get (VarTable.define [⟨"x", 1⟩, ⟨"z", 3⟩] "x" 5).1 "x" = .ok 5 :=
  ⟨by decide, claim8_define_insert_or_update.2.2.1 _ _ 5 (by decide),
    by decide, claim8_define_insert_or_update.2.2.2.1 _ _ 4 (by decide),
    by decide, claim8_define_insert_or_update.2.2.2.2 _ _ 5 (by decide),
    claim8_define_insert_or_update.2.1 _ _ 5⟩

/-- C9: putback into an empty buffer succeeds and the next get returns
exactly that token while clearing the buffer; putback with an occupied
buffer fails with the internal error and leaves the state unchanged.  (The
buffer is an Option, so by construction it never holds more than one
token.) -/
theorem claim9_putback_single_slot (t : Token) (input : List Char) :
    TS.putback ⟨input, none⟩ t = (⟨input, some t⟩, .ok ()) ∧
    TS.get ⟨input, some t⟩ = (⟨input, none⟩, .ok t) ∧
    (∀ t' : Token, TS.putback ⟨input, some t'⟩ t = (⟨input, some t'⟩, .error .internalError)) :=
  ⟨rfl, rfl, fun _ => rfl⟩

/-- C10: when the first token obtained is EndOfInput the calculation
succeeds with 0 and the untouched store (first conjunct, the general
step); in particular evaluate of the empty line and of a whitespace-only
line returns 0 and leaves any store unchanged. -/
theorem claim10_empty_input_returns_zero :
    (∀ (f : ℕ) (ts ts1 : TS) (vt : VarTable) (tok : Token),
      TS.get ts = (ts1, .ok tok) → tok.kind = .INPUT_EOF →
      calculation (f + 1) 0 ts vt = (ts1, vt, .ok 0)) ∧
    (∀ vt : VarTable, evaluate "" vt = (⟨[], none⟩, vt, .ok 0)) ∧
    (∀ vt : VarTable, evaluate "   " vt = (⟨[], none⟩, vt, .ok 0)) :=
  ⟨fun _ _ _ _ _ hg hk => calculation_step_eof hg hk, fun _ => rfl, fun _ => rfl⟩

/-- Witness for C10 at a whitespace-only stream over the empty store. -/
theorem claim10_witness :
    TS.get ⟨" ".data, none⟩ = (⟨[], none⟩, .ok (Token.ofKind .INPUT_EOF)) ∧
    (Token.ofKind .INPUT_EOF).kind = .INPUT_EOF ∧
    calculation 5 0 ⟨" ".data, none⟩ [] = (⟨[], none⟩, [], .ok 0) :=
  ⟨rfl, rfl, claim10_empty_input_returns_zero.1 4 ⟨" ".data, none⟩ ⟨[], none⟩ []
    (Token.ofKind .INPUT_EOF) rfl rfl⟩

end Calculator
